import Mathlib

/-!
Shallow embedding of the fixed-timestep game loop from
`src/src/game-loop.ts` (the self-rescheduling variant with an `isRunning`
getter and alpha-valued update payload, which the design notes designate as
the authoritative variant), together with a small timer-environment machine
that models the host `setTimeout` facility.

JavaScript numbers are modelled as exact rationals (`ℚ`); wall-clock
readings (`currentTime()`) become explicit `now` parameters.  The step
function is external and is only ever invoked for effect, so a cycle
records the *number* of step invocations; event emissions are recorded as
`Option` payloads in the cycle output.
-/

namespace GameLoopSpec

/-- Loop state: the mutable fields of the `GameLoop` class
(`stepRate`, `previousStepTime`, `residualDelayMs`, `delayClamp`,
`_isRunning`).  The step function itself is external and carries no state
the loop reads, so it is not part of the state. -/
structure GameLoop where
  stepRate : ℚ
  previousStepTime : ℚ
  residualDelayMs : ℚ
  delayClamp : ℚ
  running : Bool
deriving DecidableEq

/-- Source getter: `private get stepIntervalMs() { return 1000 / this.stepRate; }` -/
def GameLoop.stepIntervalMs (g : GameLoop) : ℚ :=
  1000 / g.stepRate

/-- Source getter: `public get isRunning() { return this._isRunning; }` -/
def GameLoop.isRunning (g : GameLoop) : Bool :=
  g.running

/-- Source getter: `public get residualDelayAlpha() { return this.residualDelayMs / this.stepIntervalMs; }` -/
def GameLoop.residualDelayAlpha (g : GameLoop) : ℚ :=
  g.residualDelayMs / g.stepIntervalMs

/-- The constructor: stores the step rate and the clamp
(`opts.delayClampMs != null ? opts.delayClampMs : 200`), initializes
`previousStepTime` to `currentTime()` (the `now` argument here),
`residualDelayMs` to `0` and `_isRunning` to `false`.  The source
constructor performs no validation and cannot fail, so this is a total
function. -/
def GameLoop.construct (stepRateHz : ℚ) (delayClampMsOpt : Option ℚ)
    (now : ℚ) : GameLoop :=
  { stepRate := stepRateHz
    previousStepTime := now
    residualDelayMs := 0
    delayClamp := delayClampMsOpt.getD 200
    running := false }

/-- Source method `private clampResidualDelay()`: if `residualDelayMs > delayClamp`,
emit `onGameStepDropped` with payload `residualDelayMs - delayClamp` and
set `residualDelayMs = min(residualDelayMs, delayClamp)`.  Returns the new
state together with the emitted payload, if any. -/
def GameLoop.clampResidualDelay (g : GameLoop) : GameLoop × Option ℚ :=
  if g.residualDelayMs > g.delayClamp then
    ({ g with residualDelayMs := min g.residualDelayMs g.delayClamp },
      some (g.residualDelayMs - g.delayClamp))
  else
    (g, none)

/-- The drain loop of `update`:
`while (residualDelayMs >= stepIntervalMs) { stepFn(); residualDelayMs -= stepIntervalMs; }`.
Returns the final residual together with the number of `stepFn`
invocations.  The source loop is entered under `residual ≥ interval`; the
extra `0 < interval` in the guard is the termination condition (for
`stepRate = 0` JavaScript yields `interval = Infinity` and the loop body
never runs, which this definition matches since `1000 / 0 = 0` in `ℚ`;
for a negative interval the JavaScript loop would not terminate at all). -/
def drain (interval : ℚ) (residual : ℚ) : ℚ × ℕ :=
  if h : 0 < interval ∧ interval ≤ residual then
    let p := drain interval (residual - interval)
    (p.1, p.2 + 1)
  else
    (residual, 0)
termination_by (⌊residual / interval⌋).toNat
decreasing_by
  have hi : 0 < interval := h.1
  have hr : interval ≤ residual := h.2
  have hdiv : (residual - interval) / interval = residual / interval - 1 := by
    field_simp
  have hfloor : ⌊(residual - interval) / interval⌋ = ⌊residual / interval⌋ - 1 := by
    rw [hdiv, Int.floor_sub_one]
  have hone : (1 : ℚ) ≤ residual / interval := by
    rw [le_div_iff₀ hi]
    simpa using hr
  have hpos : 1 ≤ ⌊residual / interval⌋ := by
    exact_mod_cast Int.le_floor.mpr (by exact_mod_cast hone)
  omega

/-- Everything a single scheduling cycle (`update`) produces: the new
loop state, whether `queueNextIteration` ran, the `onGameStepDropped`
payload if emitted, the number of `stepFn` invocations, and the
`onUpdate` payload if emitted. -/
structure CycleOutput where
  state : GameLoop
  scheduledNext : Bool
  droppedMs : Option ℚ
  steps : ℕ
  updateAlpha : Option ℚ
deriving DecidableEq

/-- Source method `private update()`: abort if not running; otherwise queue the next
iteration, accumulate `now - previousStepTime` into the residual, clamp,
drain, and emit `onUpdate` with the resulting `residualDelayAlpha`.
Here `now` stands for the `currentTime()` reading of the cycle. -/
def GameLoop.update (g : GameLoop) (now : ℚ) : CycleOutput :=
  if g.running = false then
    { state := g, scheduledNext := false, droppedMs := none, steps := 0,
      updateAlpha := none }
  else
    let g1 : GameLoop :=
      { g with
        residualDelayMs := g.residualDelayMs + (now - g.previousStepTime)
        previousStepTime := now }
    let clamped := g1.clampResidualDelay
    let drained := drain clamped.1.stepIntervalMs clamped.1.residualDelayMs
    let g2 : GameLoop := { clamped.1 with residualDelayMs := drained.1 }
    { state := g2, scheduledNext := true, droppedMs := clamped.2,
      steps := drained.2, updateAlpha := some g2.residualDelayAlpha }

/-- Source method: `public stop(): void { this._isRunning = false; }` -/
def GameLoop.stop (g : GameLoop) : GameLoop :=
  { g with running := false }

/-- Source method `public start()`: calls `stop()`, resets `previousStepTime` to
`currentTime()` (`tStart`), sets `_isRunning = true` and runs one `update`
cycle synchronously (whose own `currentTime()` reading is `tNow`). -/
def GameLoop.start (g : GameLoop) (tStart tNow : ℚ) : CycleOutput :=
  let g1 := g.stop
  let g2 : GameLoop := { g1 with previousStepTime := tStart, running := true }
  g2.update tNow

/-- A loop instance together with the host timer environment: `timers` is
the queue of pending `setTimeout` wake-ups for the `update` callback of
this loop, as absolute due times, in the order they were armed.  The source
never stores the handle returned by `setTimeout`, so nothing in the loop
can remove an entry other than the timer itself firing. -/
structure Machine where
  loop : GameLoop
  timers : List ℚ
deriving DecidableEq

/-- A fresh machine: a newly constructed loop with no pending wake-ups. -/
def Machine.construct (stepRateHz : ℚ) (delayClampMsOpt : Option ℚ)
    (now : ℚ) : Machine :=
  { loop := GameLoop.construct stepRateHz delayClampMsOpt now, timers := [] }

/-- The `stop()` operation at machine level: only the running flag changes; the pending
timer queue is untouched because the source stores no timer handle. -/
def Machine.stopM (m : Machine) : Machine :=
  { m with loop := m.loop.stop }

/-- The `start()` operation at machine level: run the `start` cycle; if that cycle called
`queueNextIteration`, a wake-up is appended, due `stepIntervalMs` after
the `currentTime()` reading of the cycle.  Existing timers are not cancelled
(the source has no handle to cancel them with). -/
def Machine.startM (m : Machine) (tStart tNow : ℚ) : Machine × CycleOutput :=
  let out := m.loop.start tStart tNow
  ({ loop := out.state
     timers := m.timers ++
       (if out.scheduledNext then [tNow + m.loop.stepIntervalMs] else []) },
    out)

/-- Delivery of the oldest pending wake-up at wall-clock time `t`: the
timer is consumed and `update` runs; if the cycle called
`queueNextIteration`, a new wake-up due `stepIntervalMs` later is
appended.  Returns `none` when no wake-up is pending. -/
def Machine.fire (m : Machine) (t : ℚ) : Option (Machine × CycleOutput) :=
  match m.timers with
  | [] => none
  | _ :: rest =>
    let out := m.loop.update t
    some
      ({ loop := out.state
         timers := rest ++
           (if out.scheduledNext then [t + m.loop.stepIntervalMs] else []) },
        out)

/-! ### Drain-loop lemmas -/

/-- The drain loop executes exactly `⌊residual / interval⌋` iterations
(clamped to zero from below) whenever the interval is positive. -/
theorem drain_count (interval residual : ℚ) (hi : 0 < interval) :
    (drain interval residual).2 = (⌊residual / interval⌋).toNat := by
  induction residual using drain.induct interval with
  | case1 residual h ih =>
    rw [drain]
    simp only [dif_pos h]
    have hr : interval ≤ residual := h.2
    have hdiv : (residual - interval) / interval = residual / interval - 1 := by
      field_simp
    have hfloor : ⌊(residual - interval) / interval⌋ = ⌊residual / interval⌋ - 1 := by
      rw [hdiv, Int.floor_sub_one]
    have hone : (1 : ℚ) ≤ residual / interval := by
      rw [le_div_iff₀ hi]
      simpa using hr
    have hpos : 1 ≤ ⌊residual / interval⌋ :=
      Int.le_floor.mpr (by exact_mod_cast hone)
    rw [ih, hfloor]
    omega
  | case2 residual h =>
    rw [drain]
    simp only [dif_neg h]
    rcases not_and_or.mp h with hbad | hlt
    · exact absurd hi hbad
    · have : residual < interval := lt_of_not_le hlt
      have hq : residual / interval < 1 := (div_lt_one hi).mpr this
      have : ⌊residual / interval⌋ < 1 := Int.floor_lt.mpr (by exact_mod_cast hq)
      omega

/-- The drain loop subtracts `interval` once per iteration:
final residual = initial residual − interval · iteration count. -/
theorem drain_val (interval residual : ℚ) :
    (drain interval residual).1 = residual - interval * (drain interval residual).2 := by
  induction residual using drain.induct interval with
  | case1 residual h ih =>
    rw [drain]
    simp only [dif_pos h]
    push_cast
    rw [ih]
    ring
  | case2 residual h =>
    rw [drain]
    simp only [dif_neg h]
    simp

/-- On exit the residual is strictly below the interval (the loop guard
fails) whenever the interval is positive. -/
theorem drain_lt (interval residual : ℚ) (hi : 0 < interval) :
    (drain interval residual).1 < interval := by
  induction residual using drain.induct interval with
  | case1 residual h ih =>
    rw [drain]
    simpa [dif_pos h] using ih
  | case2 residual h =>
    rw [drain]
    simp only [dif_neg h]
    rcases not_and_or.mp h with hbad | hlt
    · exact absurd hi hbad
    · exact lt_of_not_le hlt

/-- The drain loop never drives a nonnegative residual negative: each
subtraction happens only under the guard `interval ≤ residual`. -/
theorem drain_nonneg (interval residual : ℚ) (hr : 0 ≤ residual) :
    0 ≤ (drain interval residual).1 := by
  induction residual using drain.induct interval with
  | case1 residual h ih =>
    rw [drain]
    have : 0 ≤ residual - interval := by linarith [h.2]
    simpa [dif_pos h] using ih this
  | case2 residual h =>
    rw [drain]
    simpa [dif_neg h] using hr

/-- Closed form of the drain loop for a positive interval:
the loop runs `⌊residual / interval⌋` times (clamped to zero) and leaves
`residual − interval · count`. -/
theorem drain_closed (i r : ℚ) (hi : 0 < i) :
    drain i r = (r - i * (((⌊r / i⌋).toNat : ℕ) : ℚ), (⌊r / i⌋).toNat) := by
  have h1 := drain_val i r
  have h2 := drain_count i r hi
  have h3 : drain i r = ((drain i r).1, (drain i r).2) := rfl
  rw [h3, h1, h2]

/-- Whatever the branch taken, `clampResidualDelay` leaves exactly
`min residualDelayMs delayClamp` as the residual and changes nothing
else. -/
theorem clampResidualDelay_fst (g : GameLoop) :
    (g.clampResidualDelay).1 =
      { g with residualDelayMs := min g.residualDelayMs g.delayClamp } := by
  unfold GameLoop.clampResidualDelay
  split
  · next h => rfl
  · next h =>
    have hle : g.residualDelayMs ≤ g.delayClamp := le_of_not_lt h
    cases g
    simp_all [min_eq_left hle]

/-- The clamp emits exactly when the residual exceeds the clamp, and the
payload is the excess. -/
theorem clampResidualDelay_snd (g : GameLoop) :
    (g.clampResidualDelay).2 =
      if g.delayClamp < g.residualDelayMs
      then some (g.residualDelayMs - g.delayClamp) else none := by
  unfold GameLoop.clampResidualDelay
  split
  · next h => simp [h]
  · next h => simp [h]

/-- A cycle delivered to a stopped loop is a no-op: same state, no
scheduling, no events, no steps. -/
theorem update_not_running (g : GameLoop) (now : ℚ) (h : g.running = false) :
    g.update now = ⟨g, false, none, 0, none⟩ := by
  simp [GameLoop.update, h]

/-- Full characterization of a cycle on a running loop, with the residual
at drain-loop entry written as `min (accumulated) delayClamp`. -/
theorem update_running (g : GameLoop) (now : ℚ) (h : g.running = true) :
    g.update now =
      { state :=
          { g with
            previousStepTime := now
            residualDelayMs :=
              (drain g.stepIntervalMs
                (min (g.residualDelayMs + (now - g.previousStepTime))
                  g.delayClamp)).1 }
        scheduledNext := true
        droppedMs :=
          if g.delayClamp < g.residualDelayMs + (now - g.previousStepTime)
          then some (g.residualDelayMs + (now - g.previousStepTime) - g.delayClamp)
          else none
        steps :=
          (drain g.stepIntervalMs
            (min (g.residualDelayMs + (now - g.previousStepTime))
              g.delayClamp)).2
        updateAlpha :=
          some ((drain g.stepIntervalMs
              (min (g.residualDelayMs + (now - g.previousStepTime))
                g.delayClamp)).1 / g.stepIntervalMs) } := by
  unfold GameLoop.update
  rw [if_neg (by simp [h])]
  have hfst := clampResidualDelay_fst
    { g with
      residualDelayMs := g.residualDelayMs + (now - g.previousStepTime)
      previousStepTime := now }
  have hsnd := clampResidualDelay_snd
    { g with
      residualDelayMs := g.residualDelayMs + (now - g.previousStepTime)
      previousStepTime := now }
  simp only [hfst, hsnd]
  simp [GameLoop.stepIntervalMs, GameLoop.residualDelayAlpha]

/-! ### Claim theorems -/

/-- C1: in every scheduling cycle on a running loop, after the clamp
check, the step function is invoked exactly `⌊residual / tickInterval⌋`
times, measured at drain-loop entry (the residual there being
`min (accumulated residual) delayClamp`), and `tickIntervalMs` is
subtracted once per invocation. -/
theorem claim_C1_drain_count (g : GameLoop) (now : ℚ)
    (hrun : g.running = true) (hrate : 0 < g.stepRate) :
    (g.update now).steps =
      (⌊min (g.residualDelayMs + (now - g.previousStepTime)) g.delayClamp /
        g.stepIntervalMs⌋).toNat ∧
    (g.update now).state.residualDelayMs =
      min (g.residualDelayMs + (now - g.previousStepTime)) g.delayClamp -
        g.stepIntervalMs * (g.update now).steps := by
  have hi : 0 < g.stepIntervalMs := by
    unfold GameLoop.stepIntervalMs
    positivity
  rw [update_running g now hrun]
  refine ⟨?_, ?_⟩
  · exact drain_count _ _ hi
  · exact drain_val _ _

/-- Concrete running loop used by the witnesses: 100 Hz (tick interval
10 ms), clamp 200 ms, residual 0, last wake at time 0, running. -/
def loopA : GameLoop :=
  { stepRate := 100, previousStepTime := 0, residualDelayMs := 0,
    delayClamp := 200, running := true }

/-- C1 witness: `loopA` at `now = 13` satisfies both hypotheses. -/
theorem claim_C1_drain_count_witness :
    (loopA.running = true ∧ (0 : ℚ) < loopA.stepRate) ∧
    ((loopA.update 13).steps =
      (⌊min (loopA.residualDelayMs + (13 - loopA.previousStepTime))
          loopA.delayClamp / loopA.stepIntervalMs⌋).toNat ∧
     (loopA.update 13).state.residualDelayMs =
      min (loopA.residualDelayMs + (13 - loopA.previousStepTime))
          loopA.delayClamp -
        loopA.stepIntervalMs * (loopA.update 13).steps) :=
  ⟨⟨by decide, by decide⟩,
    claim_C1_drain_count loopA 13 (by decide) (by decide)⟩

/-- C2: on a validly configured running loop (positive rate, nonnegative
clamp) with a nonnegative residual and a non-decreasing clock, a completed
cycle leaves `0 ≤ residualDelayMs < tickIntervalMs`, hence
`residualDelayAlpha ∈ [0, 1)`; and no operation makes the residual
negative (`stop` leaves it unchanged, construction sets it to zero, and a
cycle keeps it nonnegative). -/
theorem claim_C2_residual_invariant (g : GameLoop) (now : ℚ)
    (hrun : g.running = true) (hrate : 0 < g.stepRate)
    (hclamp : 0 ≤ g.delayClamp) (hres : 0 ≤ g.residualDelayMs)
    (hnow : g.previousStepTime ≤ now) :
    (0 ≤ (g.update now).state.residualDelayMs ∧
     (g.update now).state.residualDelayMs < g.stepIntervalMs ∧
     0 ≤ (g.update now).state.residualDelayAlpha ∧
     (g.update now).state.residualDelayAlpha < 1) ∧
    (g.stop.residualDelayMs = g.residualDelayMs ∧
     ∀ r o t, (GameLoop.construct r o t).residualDelayMs = 0) := by
  have hi : 0 < g.stepIntervalMs := by
    unfold GameLoop.stepIntervalMs
    positivity
  have hacc : 0 ≤ g.residualDelayMs + (now - g.previousStepTime) := by
    linarith
  have hmin : 0 ≤ min (g.residualDelayMs + (now - g.previousStepTime))
      g.delayClamp := le_min hacc hclamp
  have h0 := drain_nonneg g.stepIntervalMs
    (min (g.residualDelayMs + (now - g.previousStepTime)) g.delayClamp) hmin
  have h1 := drain_lt g.stepIntervalMs
    (min (g.residualDelayMs + (now - g.previousStepTime)) g.delayClamp) hi
  rw [update_running g now hrun]
  refine ⟨⟨h0, h1, ?_, ?_⟩, rfl, fun r o t => rfl⟩
  · simp only [GameLoop.residualDelayAlpha, GameLoop.stepIntervalMs]
    exact div_nonneg h0 (le_of_lt hi)
  · simp only [GameLoop.residualDelayAlpha, GameLoop.stepIntervalMs]
    exact (div_lt_one hi).mpr h1

/-- C2 witness: `loopA` at `now = 13` satisfies all five hypotheses. -/
theorem claim_C2_residual_invariant_witness :
    (loopA.running = true ∧ (0 : ℚ) < loopA.stepRate ∧
     (0 : ℚ) ≤ loopA.delayClamp ∧ (0 : ℚ) ≤ loopA.residualDelayMs ∧
     loopA.previousStepTime ≤ (13 : ℚ)) ∧
    ((0 ≤ (loopA.update 13).state.residualDelayMs ∧
      (loopA.update 13).state.residualDelayMs < loopA.stepIntervalMs ∧
      0 ≤ (loopA.update 13).state.residualDelayAlpha ∧
      (loopA.update 13).state.residualDelayAlpha < 1) ∧
     (loopA.stop.residualDelayMs = loopA.residualDelayMs ∧
      ∀ r o t, (GameLoop.construct r o t).residualDelayMs = 0)) :=
  ⟨⟨by decide, by decide, by decide, by decide, by decide⟩,
    claim_C2_residual_invariant loopA 13 (by decide) (by decide) (by decide)
      (by decide) (by decide)⟩

/-- C3: on a running loop, the step-dropped notification is emitted iff
the accumulated residual exceeds `delayClampMs`; when emitted its payload
is `residual − delayClampMs` and is strictly positive; and whenever the
clamp triggers, `clampResidualDelay` (which `update` runs before the drain
loop) leaves `residualDelayMs = delayClampMs`. -/
theorem claim_C3_clamp_emission (g : GameLoop) (now : ℚ)
    (hrun : g.running = true) :
    ((g.update now).droppedMs =
      if g.delayClamp < g.residualDelayMs + (now - g.previousStepTime)
      then some (g.residualDelayMs + (now - g.previousStepTime) - g.delayClamp)
      else none) ∧
    (∀ x, (g.update now).droppedMs = some x → 0 < x) ∧
    (∀ g2 : GameLoop, g2.delayClamp < g2.residualDelayMs →
      (g2.clampResidualDelay).1.residualDelayMs = g2.delayClamp ∧
      (g2.clampResidualDelay).2 = some (g2.residualDelayMs - g2.delayClamp)) := by
  rw [update_running g now hrun]
  refine ⟨rfl, ?_, ?_⟩
  · intro x hx
    simp only at hx
    split at hx
    · next hcond =>
      cases hx
      linarith
    · exact absurd hx (by simp)
  · intro g2 h2
    rw [clampResidualDelay_fst g2, clampResidualDelay_snd g2]
    exact ⟨by simp [min_eq_right (le_of_lt h2)], by simp [h2]⟩

/-- C3 witness: `loopA` at `now = 13` (no drop: 13 ≤ 200, so the payload
facts hold vacuously at this input while the iff conjunct is exercised). -/
theorem claim_C3_clamp_emission_witness :
    loopA.running = true ∧
    (((loopA.update 13).droppedMs =
      if loopA.delayClamp < loopA.residualDelayMs + (13 - loopA.previousStepTime)
      then some (loopA.residualDelayMs + (13 - loopA.previousStepTime) -
        loopA.delayClamp)
      else none) ∧
    (∀ x, (loopA.update 13).droppedMs = some x → 0 < x) ∧
    (∀ g2 : GameLoop, g2.delayClamp < g2.residualDelayMs →
      (g2.clampResidualDelay).1.residualDelayMs = g2.delayClamp ∧
      (g2.clampResidualDelay).2 = some (g2.residualDelayMs - g2.delayClamp))) :=
  ⟨by decide, claim_C3_clamp_emission loopA 13 (by decide)⟩

/-- C4 counterexample: `stop()` does not cancel the pending scheduled
wake-up.  Start a fresh 100 Hz loop at time 0 (arming a wake-up due at
time 10) and immediately stop it: the loop reports not running, yet the
wake-up is still queued, because the source never stores the `setTimeout`
handle and `stop` only clears the flag. -/
theorem claim_C4_counterexample :
    ((Machine.construct 100 none 0).startM 0 0).1.stopM.loop.isRunning = false ∧
    ((Machine.construct 100 none 0).startM 0 0).1.stopM.timers = [10] := by
  norm_num [Machine.construct, Machine.startM, Machine.stopM,
    GameLoop.construct, GameLoop.start, GameLoop.stop, GameLoop.isRunning,
    GameLoop.update, GameLoop.clampResidualDelay, GameLoop.stepIntervalMs,
    GameLoop.residualDelayAlpha, drain_closed]

/-- C4 (amended): `stop()` marks the loop not running (the `isRunning`
query subsequently reports false) and is idempotent — stopping an already
stopped or never-started loop yields the same final state with no error —
but it leaves any pending scheduled wake-up queued (that wake-up instead
aborts at the running-flag guard when delivered). -/
theorem claim_C4_stop_behaviour (m : Machine) :
    m.stopM.loop.isRunning = false ∧
    m.stopM.stopM = m.stopM ∧
    m.stopM.timers = m.timers ∧
    ∀ r o t, (Machine.construct r o t).stopM = Machine.construct r o t := by
  refine ⟨rfl, rfl, rfl, fun r o t => rfl⟩

/-- C5: a wake-up delivered to a stopped loop aborts at the running-flag
guard: no step-function invocation, no event emission, no rescheduling,
and no state change — the delivered timer is merely consumed. -/
theorem claim_C5_stopped_noop (m : Machine) (t : ℚ)
    (hstop : m.loop.running = false) (hne : m.timers ≠ []) :
    m.fire t = some ({ loop := m.loop, timers := m.timers.tail },
      { state := m.loop, scheduledNext := false, droppedMs := none,
        steps := 0, updateAlpha := none }) := by
  obtain ⟨loop, timers⟩ := m
  cases timers with
  | nil => exact absurd rfl hne
  | cons d rest =>
    simp only [Machine.fire, update_not_running loop t hstop, List.tail_cons]
    simp

/-- Concrete stopped machine with one pending wake-up, for the C5
witness. -/
def machB : Machine :=
  { loop := { stepRate := 100, previousStepTime := 0, residualDelayMs := 3,
              delayClamp := 200, running := false },
    timers := [5] }

/-- C5 witness: `machB` (stopped, one pending wake-up) fired at time 7. -/
theorem claim_C5_stopped_noop_witness :
    (machB.loop.running = false ∧ machB.timers ≠ []) ∧
    machB.fire 7 = some ({ loop := machB.loop, timers := machB.timers.tail },
      { state := machB.loop, scheduledNext := false, droppedMs := none,
        steps := 0, updateAlpha := none }) :=
  ⟨⟨by decide, by decide⟩, claim_C5_stopped_noop machB 7 (by decide) (by decide)⟩

/-- C6 failing scenario: a 100 Hz loop (tick 10 ms) is started at time 0
(wake-up due at 10), its wake-up fires at time 13 (one step, residual
3 ms, next wake-up due at 23), and `start()` is called again at time 15
while the loop is running.  After the restart the residual is still 3 ms
(not reset) and TWO wake-ups are pending (due 23 and 25) — the old chain
was not cancelled.  The stale wake-up at 23 then passes the running-flag
guard, performs a full cycle (one step) and reschedules, so two
scheduling chains persist. -/
theorem claim_C6_restart_stacks_chains :
    ((Machine.construct 100 none 0).startM 0 0).1 =
      ⟨⟨100, 0, 0, 200, true⟩, [10]⟩ ∧
    ((⟨⟨100, 0, 0, 200, true⟩, [10]⟩ : Machine).fire 13).map Prod.fst =
      some ⟨⟨100, 13, 3, 200, true⟩, [23]⟩ ∧
    ((⟨⟨100, 13, 3, 200, true⟩, [23]⟩ : Machine).startM 15 15).1 =
      ⟨⟨100, 15, 3, 200, true⟩, [23, 25]⟩ ∧
    ((⟨⟨100, 15, 3, 200, true⟩, [23, 25]⟩ : Machine).fire 23).map
        (fun p => (p.1.timers, p.2.steps, p.2.scheduledNext)) =
      some ([25, 33], 1, true) := by
  refine ⟨?_, ?_, ?_, ?_⟩ <;>
    norm_num [Machine.construct, Machine.startM, Machine.fire,
      GameLoop.construct, GameLoop.start, GameLoop.stop, GameLoop.update,
      GameLoop.clampResidualDelay, GameLoop.stepIntervalMs,
      GameLoop.residualDelayAlpha, drain_closed]

/-- C7 counterexample: construction at `stepRateHz = 0` (and at a negative
rate with a negative `delayClampMs`) succeeds and stores the values as
given — the source constructor contains no validation and no failure
path, so no descriptive validation error is ever raised. -/
theorem claim_C7_counterexample :
    GameLoop.construct 0 none 5 = ⟨0, 5, 0, 200, false⟩ ∧
    GameLoop.construct (-10) (some (-5)) 0 = ⟨-10, 0, 0, -5, false⟩ := by
  exact ⟨rfl, rfl⟩

/-- C7 (amended): construction performs no validation: any
`stepRateHz` (including zero and negative values) and any `delayClampMs`
(including negative values) are accepted and stored as-is, with
`delayClampMs` defaulting to 200 only when absent; the constructor is
total and always yields a stopped loop with zero residual. -/
theorem claim_C7_no_validation (stepRateHz : ℚ) (o : Option ℚ) (now : ℚ) :
    (GameLoop.construct stepRateHz o now).stepRate = stepRateHz ∧
    (GameLoop.construct stepRateHz o now).delayClamp = o.getD 200 ∧
    (GameLoop.construct stepRateHz o now).residualDelayMs = 0 ∧
    (GameLoop.construct stepRateHz o now).running = false :=
  ⟨rfl, rfl, rfl, rfl⟩

/-- C8: a wake-up delivered to a running loop always arms exactly one
next wake-up, due exactly `1000 / stepRateHz` ms after the wake time `t`.
The due time depends only on `t` and the fixed step rate — not on the
residual, the clamp, or how many steps the drain loop executes — because
`queueNextIteration` runs before the measurement, clamp and drain in the
source. -/
theorem claim_C8_reschedule_cadence (m : Machine) (t : ℚ)
    (hrun : m.loop.running = true) (d : ℚ) (rest : List ℚ)
    (ht : m.timers = d :: rest) :
    (m.fire t).map (fun p => (p.2.scheduledNext, p.1.timers)) =
      some (true, rest ++ [t + 1000 / m.loop.stepRate]) := by
  obtain ⟨loop, timers⟩ := m
  simp only at ht hrun
  subst ht
  simp only [Machine.fire, update_running loop t hrun, Option.map_some]
  simp [GameLoop.stepIntervalMs]

/-- C8 witness: `loopA` with one pending wake-up due at 10, delivered at
time 12. -/
theorem claim_C8_reschedule_cadence_witness :
    ((⟨loopA, [10]⟩ : Machine).loop.running = true ∧
      (⟨loopA, [10]⟩ : Machine).timers = 10 :: []) ∧
    ((⟨loopA, [10]⟩ : Machine).fire 12).map
        (fun p => (p.2.scheduledNext, p.1.timers)) =
      some (true, [] ++ [12 + 1000 / (⟨loopA, [10]⟩ : Machine).loop.stepRate]) :=
  ⟨⟨by decide, by decide⟩,
    claim_C8_reschedule_cadence ⟨loopA, [10]⟩ 12 (by decide) 10 [] (by decide)⟩

/-- C9: when `delayClampMs` is configured strictly below the tick
interval, any cycle in which the clamp triggers runs the step function
zero times: the clamp leaves `residualDelayMs = delayClampMs`, which is
below the drain-loop guard. -/
theorem claim_C9_clamp_below_interval (g : GameLoop) (now : ℚ)
    (hrun : g.running = true) (hsmall : g.delayClamp < g.stepIntervalMs)
    (htrig : g.delayClamp < g.residualDelayMs + (now - g.previousStepTime)) :
    (g.update now).droppedMs ≠ none ∧ (g.update now).steps = 0 := by
  rw [update_running g now hrun]
  constructor
  · simp [htrig]
  · have hmin : min (g.residualDelayMs + (now - g.previousStepTime))
        g.delayClamp = g.delayClamp := min_eq_right (le_of_lt htrig)
    simp only [hmin]
    rw [drain]
    rw [dif_neg]
    rintro ⟨-, hle⟩
    exact absurd hsmall (not_lt.mpr hle)

/-- Concrete loop for the C9 witness: 100 Hz (tick 10 ms) with a clamp of
5 ms, strictly below the tick interval. -/
def loopC : GameLoop :=
  { stepRate := 100, previousStepTime := 0, residualDelayMs := 0,
    delayClamp := 5, running := true }

/-- C9 witness: `loopC` at `now = 13` (accumulated 13 ms > clamp 5 ms). -/
theorem claim_C9_clamp_below_interval_witness :
    (loopC.running = true ∧ loopC.delayClamp < loopC.stepIntervalMs ∧
      loopC.delayClamp < loopC.residualDelayMs + (13 - loopC.previousStepTime)) ∧
    ((loopC.update 13).droppedMs ≠ none ∧ (loopC.update 13).steps = 0) :=
  ⟨⟨by decide, by norm_num [loopC, GameLoop.stepIntervalMs], by norm_num [loopC]⟩,
    claim_C9_clamp_below_interval loopC 13 (by decide)
      (by norm_num [loopC, GameLoop.stepIntervalMs]) (by norm_num [loopC])⟩

/-- C10: a freshly constructed loop is not running and has
`residualDelayAlpha = 0` (its residual is initialized to zero), for every
step rate, option bag and construction time.  Both queries are embedded
as pure functions of the state, mirroring the source getters, whose
bodies contain no assignment — so reading them cannot change the loop
state. -/
theorem claim_C10_fresh_state (stepRateHz : ℚ) (o : Option ℚ) (now : ℚ) :
    (GameLoop.construct stepRateHz o now).isRunning = false ∧
    (GameLoop.construct stepRateHz o now).residualDelayAlpha = 0 :=
  ⟨rfl, zero_div _⟩

end GameLoopSpec
